import Mathlib

/-!
Verification of the dpharmd test-trigger HTTP server (src/main.go and
src/unnamed/part_000) against its natural-language specification.

The two Go files are identical except that src/main.go answers 500 to
test_type=ios while src/unnamed/part_000 implements runIOSTest.  Each
handler/runner is embedded as a pure function from the request data plus an
oracle describing the outcomes of the external effects (file opens, body
reads, subprocess runs) to a trace of events.  The trace records, in program
order, every response write, filesystem action (with paths resolved against
the process working directory at the time of the call, as the OS does),
lock acquisition/release and subprocess execution; HTTP status, response
body, and the set of staging artifacts left on disk are derived from it.
Go semantics followed in the embedding: deferred calls evaluate their
arguments at the defer statement and run in LIFO order on every exit
(including panics); calling Name() on a nil *os.File dereferences nil and
panics, while Write/Close on a nil *os.File return os.ErrInvalid
("invalid argument"); io.TeeReader only fails on the tee write if a read
returned data; os.RemoveAll resolves a relative argument against the
working directory at call time and ignores a nonexistent target.
-/

namespace DPharmd

/-- A subprocess command: program name followed by its arguments
(exec.Command's argv). -/
abbrev Cmd := List String

/-- Filesystem paths as component lists; filepath.Join is list append and a
relative path is resolved by appending it to the working directory. -/
abbrev Path := List String

/-- Renders a path the way the Go code sees it from os.File.Name() /
filepath.Join: components joined with a slash. -/
def pathStr (p : Path) : String := String.intercalate "/" p

/-- One observable action of the handler, in program order. -/
inductive Event where
  | writeHeader (status : Nat)
  | write (s : String)
  | logMsg (s : String)
  | parseQuery
  | readBody
  | closeFile (p : Path)
  | chdir (p : Path)
  | createFile (p : Path)
  | mkdirEv (p : Path)
  | removeFile (p : Path)
  | removeDirAll (p : Path)
  | lock
  | unlock
  | execStart (c : Cmd)
  | execEnd (c : Cmd) (out : String)
  deriving DecidableEq, Repr

/-- Result of handling one request: the event trace, and whether the
goroutine panicked (net/http recovers the panic; nothing more is written). -/
structure RunResult where
  trace : List Event
  panicked : Bool
  deriving DecidableEq, Repr

/-- Parsed query values in order of appearance (url.Values flattened). -/
abbrev Query := List (String × String)

/-- url.Values.Get: first value associated to the key, "" when absent. -/
def queryGet (q : Query) (k : String) : String :=
  match q.find? (fun p => p.1 == k) with
  | some p => p.2
  | none => ""

/-- Outcome of os.OpenFile with O_CREATE|O_EXCL: success, failure with
os.IsExist (the path already exists), or failure with any other error. -/
inductive OpenRes where
  | ok
  | errExist (msg : String)
  | errOther (msg : String)
  deriving DecidableEq, Repr

/-- Go strconv %q quoting as used by fmt's %q verb, for strings with no
characters needing escapes (schemes and destinations in the claims). -/
def goQuote (s : String) : String := "\"" ++ s ++ "\""

/-- Splits a character list at every comma, keeping empty segments: the
recursion behind strings.Split(s, ","). -/
def splitCommaChars : List Char → List (List Char)
  | [] => [[]]
  | c :: cs =>
    match splitCommaChars cs with
    | [] => [[]]
    | g :: gs => if c = ',' then [] :: g :: gs else (c :: g) :: gs

/-- strings.Split(s, ","): all substrings of s between commas, in order,
empty segments kept, no trimming; Split("", ",") is [""]. -/
def goSplitComma (s : String) : List String :=
  (splitCommaChars s.data).map (fun l => ⟨l⟩)

/-- Outcome of ioutil.ReadAll(io.TeeReader(r.Body, file)): an error message,
or none on success.  `filePresent` is whether the *os.File is non-nil:
a nil file's Write returns os.ErrInvalid, but only if some body data was
actually read (TeeReader writes nothing on an empty body). -/
def readAllTee (filePresent : Bool) (readErr : Option String) (bodyEmpty : Bool) :
    Option String :=
  match readErr with
  | some e => some e
  | none =>
    if filePresent then none
    else if bodyEmpty then none
    else some "invalid argument"

/-! ### Derived views of a trace -/

/-- HTTP status of the response: Go's ResponseWriter takes the first
WriteHeader, and any Write before a WriteHeader fixes the implicit 200. -/
def respStatus : List Event → Nat
  | [] => 200
  | .writeHeader n :: _ => n
  | .write _ :: _ => 200
  | _ :: r => respStatus r

/-- Response body: concatenation of all writes, in order. -/
def respBody : List Event → String
  | [] => ""
  | .write s :: r => s ++ respBody r
  | _ :: r => respBody r

/-- The commands handed to exec.Command, in invocation order. -/
def execCmds : List Event → List Cmd
  | [] => []
  | .execStart c :: r => c :: execCmds r
  | _ :: r => execCmds r

/-- Whether `p` is an initial segment of `q` (so os.RemoveAll p deletes q). -/
def startsWith : Path → Path → Bool
  | [], _ => true
  | _ :: _, [] => false
  | a :: p, b :: q => a == b && startsWith p q

/-- Folds the trace over the set of paths this request created and that are
still on disk: creations add, os.Remove deletes the exact path, os.RemoveAll
deletes the path and everything below it. -/
def remaining : List Event → List Path → List Path
  | [], acc => acc
  | .createFile p :: r, acc => remaining r (acc ++ [p])
  | .mkdirEv p :: r, acc => remaining r (acc ++ [p])
  | .removeFile p :: r, acc => remaining r (acc.filter (fun q => !(q == p)))
  | .removeDirAll p :: r, acc => remaining r (acc.filter (fun q => !(startsWith p q)))
  | _ :: r, acc => remaining r acc

/-- Events that are query parsing. -/
def isParseEv : Event → Bool
  | .parseQuery => true
  | _ => false

/-- Events that touch the filesystem or the request body. -/
def isFileEv : Event → Bool
  | .readBody => true
  | .closeFile _ => true
  | .chdir _ => true
  | .createFile _ => true
  | .mkdirEv _ => true
  | .removeFile _ => true
  | .removeDirAll _ => true
  | _ => false

/-- Events that are subprocess invocations. -/
def isExecEv : Event → Bool
  | .execStart _ => true
  | .execEnd _ _ => true
  | _ => false

/-- Events that set the HTTP status explicitly. -/
def isHeaderEv : Event → Bool
  | .writeHeader _ => true
  | _ => false

/-! ### The Android runner (src/main.go lines 62-115; identical text at
src/unnamed/part_000 lines 63-116) -/

/-- Oracle for the effects of one Android request: the temp root, the
random 5-character suffix produced by RandomAlphaNumericString(5), the
result of the exclusive-create open, the body read error (if any), whether
the body is empty, and the (combined output, error) of the n-th
exec.Command run. -/
structure AndroidEnv where
  tempDir : Path
  suffix : String
  openRes : OpenRes
  readErr : Option String
  bodyEmpty : Bool
  exec : Nat → String × Option String

/-- Embeds runAndroidTest.  Branches mirror the Go source line by line;
every exit after `defer os.Remove(apkFile.Name())` / `defer testMu.Unlock()`
appends the deferred actions in LIFO order.  When OpenFile fails with an
error that is not IsExist, apkFile is nil and the defer statement's
argument apkFile.Name() dereferences nil: the goroutine panics before any
deferred call is registered and before anything is written. -/
def runAndroidTest (query : Query) (env : AndroidEnv) : RunResult :=
  let testPackage := queryGet query "test_package"
  if testPackage = "" then
    ⟨[.writeHeader 400, .write "must specify \x27test_package\x27"], false⟩
  else
    let apkFileName : Path := env.tempDir ++ ["test_" ++ env.suffix ++ ".apk"]
    match env.openRes with
    | .errExist msg =>
      ⟨[.writeHeader 400, .write msg], false⟩
    | .errOther _ =>
      ⟨[], true⟩
    | .ok =>
      let created : List Event := [.createFile apkFileName]
      match readAllTee true env.readErr env.bodyEmpty with
      | some e =>
        ⟨created ++ [.readBody, .writeHeader 400, .write e,
          .removeFile apkFileName], false⟩
      | none =>
        let pre := created ++ [.readBody, .closeFile apkFileName,
          .logMsg ("android: Installing and running " ++ testPackage), .lock]
        let c1 : Cmd := ["adb", "install", "-r", pathStr apkFileName]
        let out1 := (env.exec 0).1
        match (env.exec 0).2 with
        | some e =>
          ⟨pre ++ [.execStart c1, .execEnd c1 out1, .writeHeader 400,
            .write e, .write "\n", .write out1,
            .unlock, .removeFile apkFileName], false⟩
        | none =>
          let c2 : Cmd := ["adb", "shell", "am", "instrument", "-w",
            testPackage ++ "/android.support.test.runner.AndroidJUnitRunner"]
          let out2 := (env.exec 1).1
          match (env.exec 1).2 with
          | some e =>
            ⟨pre ++ [.execStart c1, .execEnd c1 out1, .execStart c2,
              .execEnd c2 out2, .writeHeader 400, .write e, .write "\n",
              .write out2, .unlock, .removeFile apkFileName], false⟩
          | none =>
            ⟨pre ++ [.execStart c1, .execEnd c1 out1, .execStart c2,
              .execEnd c2 out2, .write out2,
              .unlock, .removeFile apkFileName], false⟩

/-! ### The iOS runner (src/unnamed/part_000 lines 118-210) -/

/-- Oracle for the effects of one iOS request: temp root, random suffix for
the staging directory, errors (if any) for the two Chdir calls and the
Mkdir, the open result for source.tgz, the body read error, body emptiness,
and the (combined output, error) of the n-th exec.Command run (index 0 is
the tar extraction, index 1+i is scheme i). -/
structure IOSEnv where
  tempDir : Path
  suffix : String
  chdirTmpErr : Option String
  mkdirErr : Option String
  chdirInErr : Option String
  openRes : OpenRes
  readErr : Option String
  bodyEmpty : Bool
  exec : Nat → String × Option String

/-- Embeds the per-scheme loop of runIOSTest (part_000 lines 186-205):
for each scheme, log and write the start line, run xcodebuild, and report
!!TEST FAILED!! (continuing) or !!TEST PASSED!!.  `i` is the exec.Command
invocation index of the first scheme; returns the events and the final
value of the testFailed flag. -/
def schemeLoop (dest : String) (exec : Nat → String × Option String) :
    Nat → List String → List Event × Bool
  | _, [] => ([], false)
  | i, s :: rest =>
    let msg := "ios: Testing scheme " ++ goQuote s ++ " on destination " ++
      goQuote dest
    let c : Cmd := ["xcodebuild", "test", "-destination", dest, "-scheme", s]
    let out := (exec i).1
    let tail := schemeLoop dest exec (i + 1) rest
    match (exec i).2 with
    | some e =>
      (([.logMsg msg, .write msg, .write "\n", .execStart c, .execEnd c out,
        .write "!!TEST FAILED!!\n", .write e, .write "\n", .write out] ++
        tail.1), true)
    | none =>
      (([.logMsg msg, .write msg, .write "\n", .execStart c, .execEnd c out,
        .write "!!TEST PASSED!!\n", .write out] ++ tail.1), tail.2)

/-- Embeds runIOSTest.  The working directory is threaded explicitly: after
the second Chdir succeeds the process sits inside the staging directory
tempDir/suffix, so the deferred os.RemoveAll(sourceDir) — whose argument is
the bare relative name suffix, resolved at execution time — targets
tempDir/suffix/suffix on those exits, and tempDir/suffix only on the exit
where the second Chdir failed.  A nil source file (open failed with a
non-IsExist error) makes the tee write fail with "invalid argument" when
the body is non-empty, and otherwise panics at sourceFile.Name() when
building the tar command. -/
def runIOSTest (query : Query) (env : IOSEnv) : RunResult :=
  let testDestination := queryGet query "test_destination"
  if testDestination = "" then
    ⟨[.writeHeader 400, .write "must specify \x27test_destination\x27"], false⟩
  else
    let testSchemesStr := queryGet query "test_schemes"
    if testSchemesStr = "" then
      ⟨[.writeHeader 400, .write "must specify \x27test_schemes\x27"], false⟩
    else
      let testSchemes := goSplitComma testSchemesStr
      match env.chdirTmpErr with
      | some e => ⟨[.writeHeader 500, .write e], false⟩
      | none =>
        let staging : Path := env.tempDir ++ [env.suffix]
        match env.mkdirErr with
        | some e => ⟨[.chdir env.tempDir, .writeHeader 500, .write e], false⟩
        | none =>
          let pre0 : List Event := [.chdir env.tempDir, .mkdirEv staging]
          match env.chdirInErr with
          | some e =>
            ⟨pre0 ++ [.writeHeader 500, .write e, .removeDirAll staging],
              false⟩
          | none =>
            let pre1 := pre0 ++ [.chdir staging]
            let sourceFileName : Path := staging ++ ["source.tgz"]
            let leak : Event := .removeDirAll (staging ++ [env.suffix])
            match env.openRes with
            | .errExist msg =>
              ⟨pre1 ++ [.writeHeader 400, .write msg, leak], false⟩
            | .errOther _ =>
              match readAllTee false env.readErr env.bodyEmpty with
              | some e =>
                ⟨pre1 ++ [.readBody, .writeHeader 400, .write e, leak], false⟩
              | none =>
                ⟨pre1 ++ [.readBody, .logMsg "ios: Unpacking source", leak],
                  true⟩
            | .ok =>
              let pre2 := pre1 ++ [.createFile sourceFileName]
              match readAllTee true env.readErr env.bodyEmpty with
              | some e =>
                ⟨pre2 ++ [.readBody, .writeHeader 400, .write e, leak], false⟩
              | none =>
                let ctar : Cmd := ["tar", "xf", pathStr sourceFileName]
                let outTar := (env.exec 0).1
                let pre3 := pre2 ++ [.readBody, .closeFile sourceFileName,
                  .logMsg "ios: Unpacking source",
                  .execStart ctar, .execEnd ctar outTar]
                match (env.exec 0).2 with
                | some e =>
                  ⟨pre3 ++ [.writeHeader 400, .write e, .write "\n",
                    .write outTar, leak], false⟩
                | none =>
                  let loop := schemeLoop testDestination env.exec 1 testSchemes
                  ⟨pre3 ++ [.lock] ++ loop.1 ++
                    (if loop.2 then [] else [.write "!!ALL TESTS PASSED!!\n"]) ++
                    [.unlock, leak], false⟩

/-! ### The HTTP dispatcher (src/main.go lines 36-60 and
src/unnamed/part_000 lines 37-61) -/

/-- Oracle for one request to the dispatcher: the result of
url.ParseQuery(r.URL.RawQuery) and the effect oracles of both runners. -/
structure ReqEnv where
  parse : Except String Query
  android : AndroidEnv
  ios : IOSEnv

/-- Prepends an event to a result's trace. -/
def RunResult.cons (e : Event) (r : RunResult) : RunResult :=
  ⟨e :: r.trace, r.panicked⟩

/-- Embeds handler from src/main.go: auth check, query parse, route by
test_type; the ios arm answers a bare 500. -/
def handlerMain (auth secret : String) (env : ReqEnv) : RunResult :=
  if auth ≠ secret then ⟨[.writeHeader 401], false⟩
  else
    match env.parse with
    | .error e => ⟨[.parseQuery, .writeHeader 400, .write e], false⟩
    | .ok query =>
      if queryGet query "test_type" = "android" then
        RunResult.cons .parseQuery (runAndroidTest query env.android)
      else if queryGet query "test_type" = "ios" then
        ⟨[.parseQuery, .writeHeader 500], false⟩
      else
        ⟨[.parseQuery, .writeHeader 400,
          .write "must specify \x27test_type\x27"], false⟩

/-- Embeds handler from src/unnamed/part_000: identical to handlerMain
except that the ios arm calls runIOSTest. -/
def handlerPart (auth secret : String) (env : ReqEnv) : RunResult :=
  if auth ≠ secret then ⟨[.writeHeader 401], false⟩
  else
    match env.parse with
    | .error e => ⟨[.parseQuery, .writeHeader 400, .write e], false⟩
    | .ok query =>
      if queryGet query "test_type" = "android" then
        RunResult.cons .parseQuery (runAndroidTest query env.android)
      else if queryGet query "test_type" = "ios" then
        RunResult.cons .parseQuery (runIOSTest query env.ios)
      else
        ⟨[.parseQuery, .writeHeader 400,
          .write "must specify \x27test_type\x27"], false⟩

/-! ### Lock/exec structure of traces and mutual exclusion of interleavings -/

/-- The device-touching commands the spec's serialization talk is about:
adb install / adb shell am instrument (Android) and the xcodebuild
per-scheme invocations (iOS).  The iOS tar extraction is not among them. -/
def serializedCmd (c : Cmd) : Bool :=
  match c.head? with
  | some p => p == "adb" || p == "xcodebuild"
  | none => false

/-- The lock-relevant shape of an event: testMu.Lock, testMu.Unlock, start
or end of a serialized (device-touching) command, or anything else. -/
inductive Act where
  | lk
  | unlk
  | sstart
  | sfin
  | noop
  deriving DecidableEq, Fintype

/-- Classifies an event for the lock automata. -/
def actOf : Event → Act
  | .lock => .lk
  | .unlock => .unlk
  | .execStart c => if serializedCmd c then .sstart else .noop
  | .execEnd c _ => if serializedCmd c then .sfin else .noop
  | _ => .noop

/-- Single-thread well-locking automaton on state (locked, inExec): a
serialized command may only start while the lock is held and no serialized
command is open; lock and unlock never happen inside an open command. -/
def wlStepA (s : Bool × Bool) : Act → Option (Bool × Bool)
  | .lk => if s.2 then none else some (true, false)
  | .unlk => if s.2 then none else some (false, false)
  | .sstart => if s.1 && !s.2 then some (s.1, true) else none
  | .sfin => if s.2 then some (s.1, false) else none
  | .noop => some s

/-- The well-locking automaton on raw events. -/
def wlStep (s : Bool × Bool) (e : Event) : Option (Bool × Bool) :=
  wlStepA s (actOf e)

/-- Runs the well-locking automaton over a trace. -/
def wlRun : Bool × Bool → List Event → Option (Bool × Bool)
  | s, [] => some s
  | s, ev :: r =>
    match wlStep s ev with
    | none => none
    | some s2 => wlRun s2 r

/-- A trace is well-locked when the automaton accepts it starting and
ending unlocked with no open command: every serialized command of the
trace runs strictly between its Lock and its Unlock. -/
def wellLocked (t : List Event) : Prop :=
  wlRun (false, false) t = some (false, false)

/-- `Interleave l a b`: `l` is an interleaving of the two request traces
`a` (tagged true) and `b` (tagged false), each thread's events kept in
order — the schedules a Go runtime could produce for two in-flight
requests. -/
inductive Interleave : List (Bool × Event) → List Event → List Event → Prop where
  | nil : Interleave [] [] []
  | left {l a b e} : Interleave l a b → Interleave ((true, e) :: l) (e :: a) b
  | right {l a b e} : Interleave l a b → Interleave ((false, e) :: l) a (e :: b)

/-- Mutex semantics of sync.Mutex for one scheduled action: Lock blocks
unless the mutex is free, Unlock is done by the owner; the step is none on
a schedule the mutex semantics cannot produce. -/
def mStepA (o : Option Bool) (t : Bool) : Act → Option (Option Bool)
  | .lk => if o = none then some (some t) else none
  | .unlk => if o = some t then some none else none
  | _ => some o

/-- The mutex automaton on raw scheduled events. -/
def mStep (o : Option Bool) (te : Bool × Event) : Option (Option Bool) :=
  mStepA o te.1 (actOf te.2)

/-- Runs the mutex automaton over a schedule. -/
def mRun : Option Bool → List (Bool × Event) → Option (Option Bool)
  | o, [] => some o
  | o, te :: r =>
    match mStep o te with
    | none => none
    | some o2 => mRun o2 r

/-- Exclusion checker: scans a schedule tracking which thread has a
serialized command open; fails exactly when a serialized command starts
while another one is still open — i.e. when two device-touching command
windows overlap in time. -/
def exclStepA (op : Option Bool) (t : Bool) : Act → Option (Option Bool)
  | .sstart => if op = none then some (some t) else none
  | .sfin => if op = some t then some none else some op
  | _ => some op

/-- The exclusion checker on raw scheduled events. -/
def exclStep (op : Option Bool) (te : Bool × Event) : Option (Option Bool) :=
  exclStepA op te.1 (actOf te.2)

/-- Runs the exclusion checker over a schedule. -/
def exclRun : Option Bool → List (Bool × Event) → Option (Option Bool)
  | op, [] => some op
  | op, te :: r =>
    match exclStep op te with
    | none => none
    | some op2 => exclRun op2 r

/-- Boolean invariant tying together the mutex owner `o`, the two threads'
well-locking states `sa`, `sb`, and the exclusion checker's open thread
`op`: a thread that believes it holds the lock owns the mutex, a thread
inside a serialized command is the open thread and holds the lock, and the
open thread is inside a command. -/
def invB (o : Option Bool) (sa sb : Bool × Bool) (op : Option Bool) : Bool :=
  (!sa.1 || o == some true) && (!sb.1 || o == some false) &&
  (!sa.2 || (op == some true && sa.1)) && (!sb.2 || (op == some false && sb.1)) &&
  (op != some true || sa.2) && (op != some false || sb.2)

/-- The invariant as a proposition. -/
def MutexInv (o : Option Bool) (sa sb : Bool × Bool) (op : Option Bool) : Prop :=
  invB o sa sb op = true

/-! ### Spec-side descriptions used to state the functional claims -/

/-- The response text one scheme iteration should produce according to the
spec: the start line, then the FAILED marker with error and output, or the
PASSED marker with output. -/
def schemeText (dest : String) (ex : String × Option String) (s : String) : String :=
  "ios: Testing scheme " ++ goQuote s ++ " on destination " ++ goQuote dest ++
    "\n" ++
    (match ex.2 with
     | some e => "!!TEST FAILED!!\n" ++ e ++ "\n" ++ ex.1
     | none => "!!TEST PASSED!!\n" ++ ex.1)

/-- The whole loop body the spec describes, for schemes `ss` whose first
exec.Command index is `i`. -/
def loopText (dest : String) (exec : Nat → String × Option String) :
    Nat → List String → String
  | _, [] => ""
  | i, s :: rest => schemeText dest (exec i) s ++ loopText dest exec (i + 1) rest

/-- Whether some scheme in `ss` (first exec index `i`) fails. -/
def anyFail (exec : Nat → String × Option String) : Nat → List String → Bool
  | _, [] => false
  | i, _ :: rest => ((exec i).2).isSome || anyFail exec (i + 1) rest

/-- The events of an iOS request with successful staging and extraction,
up to (not including) the lock acquisition: the two directory changes, the
staging creations, the body copy, and the tar run. -/
def iosSuccessPre (env : IOSEnv) : List Event :=
  [.chdir env.tempDir, .mkdirEv (env.tempDir ++ [env.suffix]),
   .chdir (env.tempDir ++ [env.suffix]),
   .createFile (env.tempDir ++ [env.suffix, "source.tgz"]), .readBody,
   .closeFile (env.tempDir ++ [env.suffix, "source.tgz"]),
   .logMsg "ios: Unpacking source",
   .execStart ["tar", "xf", pathStr (env.tempDir ++ [env.suffix, "source.tgz"])],
   .execEnd ["tar", "xf", pathStr (env.tempDir ++ [env.suffix, "source.tgz"])]
     (env.exec 0).1]

/-- A fixed sample effect oracle for witnesses: every subprocess succeeds. -/
def okExec : Nat → String × Option String := fun _ => ("out", none)

/-- A sample Android oracle whose staging and commands all succeed. -/
def sampleAndroidEnv : AndroidEnv :=
  ⟨["/tmp"], "abcde", .ok, none, false, okExec⟩

/-- A sample iOS oracle whose staging, extraction and schemes all succeed. -/
def sampleIOSEnv : IOSEnv :=
  ⟨["/tmp"], "abcde", none, none, none, .ok, none, false, okExec⟩

/-- A sample dispatcher oracle around the two sample runner oracles. -/
def sampleReqEnv (parse : Except String Query) : ReqEnv :=
  ⟨parse, sampleAndroidEnv, sampleIOSEnv⟩

/-! ## Claim theorems -/

/-- C3: whenever the Authorization header differs from the configured
secret (a missing header reads as ""), both handler variants answer 401
with an empty body and perform no query parsing, no file or body I/O, and
no subprocess invocation, whatever the rest of the request and
environment hold. -/
theorem c3_auth_gate (auth secret : String) (h : auth ≠ secret) (env : ReqEnv) :
    handlerMain auth secret env = ⟨[.writeHeader 401], false⟩ ∧
    handlerPart auth secret env = ⟨[.writeHeader 401], false⟩ ∧
    respStatus (handlerMain auth secret env).trace = 401 ∧
    respBody (handlerMain auth secret env).trace = "" ∧
    respStatus (handlerPart auth secret env).trace = 401 ∧
    respBody (handlerPart auth secret env).trace = "" ∧
    (handlerMain auth secret env).trace.all
      (fun e => !(isParseEv e || isFileEv e || isExecEv e)) = true ∧
    (handlerPart auth secret env).trace.all
      (fun e => !(isParseEv e || isFileEv e || isExecEv e)) = true := by
  simp [handlerMain, handlerPart, h, respStatus, respBody, isParseEv,
    isFileEv, isExecEv]

/-- Witness for C3 at a concrete mismatching header. -/
theorem c3_auth_gate_witness :
    "wrong" ≠ "s3cret" ∧
    handlerMain "wrong" "s3cret" (sampleReqEnv (.ok [("test_type", "android")])) =
      ⟨[.writeHeader 401], false⟩ := by
  refine ⟨by decide, ?_⟩
  exact (c3_auth_gate "wrong" "s3cret" (by decide)
    (sampleReqEnv (.ok [("test_type", "android")]))).1

/-- C7: on an authorized request, a query string that parses with
test_type absent or different from "android" and "ios" draws a 400 whose
body is exactly "must specify \x27test_type\x27"; a query string that fails
to parse draws a 400 whose body is the parse error text.  Both variants
behave identically here. -/
theorem c7_test_type_routing (secret : String) (env : ReqEnv) :
    (∀ q, env.parse = .ok q →
      queryGet q "test_type" ≠ "android" → queryGet q "test_type" ≠ "ios" →
      respStatus (handlerMain secret secret env).trace = 400 ∧
      respBody (handlerMain secret secret env).trace =
        "must specify \x27test_type\x27" ∧
      respStatus (handlerPart secret secret env).trace = 400 ∧
      respBody (handlerPart secret secret env).trace =
        "must specify \x27test_type\x27") ∧
    (∀ e, env.parse = .error e →
      respStatus (handlerMain secret secret env).trace = 400 ∧
      respBody (handlerMain secret secret env).trace = e ∧
      respStatus (handlerPart secret secret env).trace = 400 ∧
      respBody (handlerPart secret secret env).trace = e) := by
  constructor
  · intro q hq h1 h2
    simp [handlerMain, handlerPart, hq, h1, h2, respStatus, respBody]
  · intro e he
    simp [handlerMain, handlerPart, he, respStatus, respBody]

/-- Witness for C7 at test_type=macos and at a concrete parse failure. -/
theorem c7_test_type_routing_witness :
    (respStatus (handlerMain "s" "s" (sampleReqEnv (.ok [("test_type", "macos")]))).trace = 400 ∧
      respBody (handlerMain "s" "s" (sampleReqEnv (.ok [("test_type", "macos")]))).trace =
        "must specify \x27test_type\x27") ∧
    respBody (handlerPart "s" "s" (sampleReqEnv (.error "bad query"))).trace = "bad query" := by
  refine ⟨?_, ?_⟩
  · have h := (c7_test_type_routing "s"
      (sampleReqEnv (.ok [("test_type", "macos")]))).1
      [("test_type", "macos")] rfl (by decide) (by decide)
    exact ⟨h.1, h.2.1⟩
  · exact ((c7_test_type_routing "s"
      (sampleReqEnv (.error "bad query"))).2 "bad query" rfl).2.2.2

/-- C8: the two variants agree on every request that does not reach the
iOS runner — bad auth, parse failure, or any parsed test_type other than
"ios" (in particular all android requests, which both route to the same
runAndroidTest) — and differ exactly on authorized test_type=ios requests,
where src/main.go answers 500 with empty body while src/unnamed/part_000
runs the iOS runner. -/
theorem c8_variant_refinement (auth secret : String) (env : ReqEnv) :
    ((auth ≠ secret ∨ (∃ e, env.parse = .error e) ∨
        (∀ q, env.parse = .ok q → queryGet q "test_type" ≠ "ios")) →
      handlerMain auth secret env = handlerPart auth secret env) ∧
    (auth = secret → ∀ q, env.parse = .ok q → queryGet q "test_type" = "ios" →
      handlerMain auth secret env = ⟨[.parseQuery, .writeHeader 500], false⟩ ∧
      respStatus (handlerMain auth secret env).trace = 500 ∧
      respBody (handlerMain auth secret env).trace = "" ∧
      handlerPart auth secret env =
        RunResult.cons .parseQuery (runIOSTest q env.ios)) := by
  constructor
  · rintro (h | ⟨e, he⟩ | h)
    · simp [handlerMain, handlerPart, h]
    · simp [handlerMain, handlerPart, he]
    · unfold handlerMain handlerPart
      by_cases hs : auth ≠ secret
      · simp [hs]
      · cases hp : env.parse with
        | error e => simp
        | ok q =>
          have := h q hp
          simp [this]
  · intro hs q hq hty
    have hios : ¬queryGet q "test_type" = "android" := by
      rw [hty]; decide
    simp [handlerMain, handlerPart, hs, hq, hty, hios, respStatus, respBody]

/-- Witness for C8 at an authorized concrete ios request and a concrete
android request. -/
theorem c8_variant_refinement_witness :
    handlerMain "s" "s" (sampleReqEnv (.ok [("test_type", "android")])) =
      handlerPart "s" "s" (sampleReqEnv (.ok [("test_type", "android")])) ∧
    handlerMain "s" "s" (sampleReqEnv (.ok [("test_type", "ios")])) =
      ⟨[.parseQuery, .writeHeader 500], false⟩ := by
  constructor
  · exact (c8_variant_refinement "s" "s"
      (sampleReqEnv (.ok [("test_type", "android")]))).1
      (Or.inr (Or.inr (by intro q hq; cases hq; decide)))
  · exact ((c8_variant_refinement "s" "s"
      (sampleReqEnv (.ok [("test_type", "ios")]))).2 rfl
      [("test_type", "ios")] rfl (by decide)).1

/-- C6: a missing required type-specific parameter fails the request
before any I/O.  Android with no test_package answers 400 with body
"must specify \x27test_package\x27"; iOS with no test_destination answers
400 naming test_destination, and with a destination but no test_schemes
answers 400 naming test_schemes; in each case the whole trace is just the
two response events — no directory change, file creation, body read or
subprocess. -/
theorem c6_required_params :
    (∀ (q : Query) (env : AndroidEnv), queryGet q "test_package" = "" →
      runAndroidTest q env =
        ⟨[.writeHeader 400, .write "must specify \x27test_package\x27"], false⟩ ∧
      (runAndroidTest q env).trace.all
        (fun e => !(isFileEv e || isExecEv e)) = true) ∧
    (∀ (q : Query) (env : IOSEnv), queryGet q "test_destination" = "" →
      runIOSTest q env =
        ⟨[.writeHeader 400, .write "must specify \x27test_destination\x27"], false⟩ ∧
      (runIOSTest q env).trace.all
        (fun e => !(isFileEv e || isExecEv e)) = true) ∧
    (∀ (q : Query) (env : IOSEnv), queryGet q "test_destination" ≠ "" →
      queryGet q "test_schemes" = "" →
      runIOSTest q env =
        ⟨[.writeHeader 400, .write "must specify \x27test_schemes\x27"], false⟩ ∧
      (runIOSTest q env).trace.all
        (fun e => !(isFileEv e || isExecEv e)) = true) := by
  refine ⟨?_, ?_, ?_⟩
  · intro q env h
    constructor
    · simp [runAndroidTest, h]
    · simp [runAndroidTest, h, isFileEv, isExecEv]
  · intro q env h
    constructor
    · simp [runIOSTest, h]
    · simp [runIOSTest, h, isFileEv, isExecEv]
  · intro q env h1 h2
    constructor
    · simp [runIOSTest, h1, h2]
    · simp [runIOSTest, h1, h2, isFileEv, isExecEv]

/-- Witness for C6 at concrete requests missing each parameter. -/
theorem c6_required_params_witness :
    runAndroidTest [("test_type", "android")] sampleAndroidEnv =
      ⟨[.writeHeader 400, .write "must specify \x27test_package\x27"], false⟩ ∧
    runIOSTest [("test_type", "ios")] sampleIOSEnv =
      ⟨[.writeHeader 400, .write "must specify \x27test_destination\x27"], false⟩ ∧
    runIOSTest [("test_type", "ios"), ("test_destination", "mydev")] sampleIOSEnv =
      ⟨[.writeHeader 400, .write "must specify \x27test_schemes\x27"], false⟩ := by
  refine ⟨?_, ?_, ?_⟩
  · exact (c6_required_params.1 [("test_type", "android")] sampleAndroidEnv
      (by decide)).1
  · exact (c6_required_params.2.1 [("test_type", "ios")] sampleIOSEnv
      (by decide)).1
  · exact (c6_required_params.2.2 [("test_type", "ios"), ("test_destination", "mydev")]
      sampleIOSEnv (by decide) (by decide)).1

/-- C5: in the Android runner with successful staging, a failing install
command draws a 400 whose body is the error text, a newline, and the
install's combined output, and the instrumentation command is never run; a
failing instrumentation draws a 400 with its error and output after both
commands ran; and when both succeed the status is the untouched default
200 and the body is exactly the instrumentation's combined output. -/
theorem c5_android_commands (q : Query) (env : AndroidEnv)
    (hpkg : queryGet q "test_package" ≠ "")
    (hopen : env.openRes = .ok) (hread : env.readErr = none) :
    (∀ out e, env.exec 0 = (out, some e) →
      respStatus (runAndroidTest q env).trace = 400 ∧
      respBody (runAndroidTest q env).trace = e ++ "\n" ++ out ∧
      execCmds (runAndroidTest q env).trace =
        [["adb", "install", "-r",
          pathStr (env.tempDir ++ ["test_" ++ env.suffix ++ ".apk"])]]) ∧
    (∀ out1 out2 e, env.exec 0 = (out1, none) → env.exec 1 = (out2, some e) →
      respStatus (runAndroidTest q env).trace = 400 ∧
      respBody (runAndroidTest q env).trace = e ++ "\n" ++ out2 ∧
      execCmds (runAndroidTest q env).trace =
        [["adb", "install", "-r",
          pathStr (env.tempDir ++ ["test_" ++ env.suffix ++ ".apk"])],
         ["adb", "shell", "am", "instrument", "-w",
          queryGet q "test_package" ++
            "/android.support.test.runner.AndroidJUnitRunner"]]) ∧
    (∀ out1 out2, env.exec 0 = (out1, none) → env.exec 1 = (out2, none) →
      respStatus (runAndroidTest q env).trace = 200 ∧
      respBody (runAndroidTest q env).trace = out2 ∧
      (runAndroidTest q env).trace.all (fun e => !isHeaderEv e) = true) := by
  refine ⟨?_, ?_, ?_⟩
  · intro out e h0
    simp [runAndroidTest, hpkg, hopen, hread, h0, readAllTee, respStatus,
      respBody, execCmds, String.append_assoc]
  · intro out1 out2 e h0 h1
    simp [runAndroidTest, hpkg, hopen, hread, h0, h1, readAllTee, respStatus,
      respBody, execCmds, String.append_assoc]
  · intro out1 out2 h0 h1
    simp [runAndroidTest, hpkg, hopen, hread, h0, h1, readAllTee, respStatus,
      respBody, execCmds, isHeaderEv]

/-- Witness for C5 at a concrete successful request. -/
theorem c5_android_commands_witness :
    respStatus (runAndroidTest [("test_package", "com.x.tests")] sampleAndroidEnv).trace
      = 200 ∧
    respBody (runAndroidTest [("test_package", "com.x.tests")] sampleAndroidEnv).trace
      = "out" := by
  have h := (c5_android_commands [("test_package", "com.x.tests")]
    sampleAndroidEnv (by decide) rfl rfl).2.2 "out" "out" rfl rfl
  exact ⟨h.1, h.2.1⟩

/-! ### Helper lemmas about trace views and the scheme loop -/

/-- respBody distributes over trace concatenation. -/
theorem respBody_append (a b : List Event) :
    respBody (a ++ b) = respBody a ++ respBody b := by
  induction a with
  | nil => simp [respBody]
  | cons e r ih => cases e <;> simp [respBody, ih, String.append_assoc]

/-- execCmds distributes over trace concatenation. -/
theorem execCmds_append (a b : List Event) :
    execCmds (a ++ b) = execCmds a ++ execCmds b := by
  induction a with
  | nil => simp [execCmds]
  | cons e r ih => cases e <;> simp [execCmds, ih]

/-- A trace that never calls WriteHeader reports the implicit status 200. -/
theorem respStatus_no_header (l : List Event)
    (h : ∀ e ∈ l, isHeaderEv e = false) : respStatus l = 200 := by
  induction l with
  | nil => rfl
  | cons e r ih =>
    have he := h e (by simp)
    cases e <;> simp_all [respStatus, isHeaderEv]

/-- The response text of the scheme loop is the per-scheme text the spec
describes, scheme by scheme in order. -/
theorem schemeLoop_body (dest : String) (exec : Nat → String × Option String)
    (ss : List String) (i : Nat) :
    respBody (schemeLoop dest exec i ss).1 = loopText dest exec i ss := by
  induction ss generalizing i with
  | nil => rfl
  | cons s rest ih =>
    cases h : (exec i).2 <;>
      simp [schemeLoop, loopText, schemeText, h, respBody, ih,
        String.append_assoc]

/-- The scheme loop runs xcodebuild test once per scheme, in list order,
passing each scheme string unchanged. -/
theorem schemeLoop_cmds (dest : String) (exec : Nat → String × Option String)
    (ss : List String) (i : Nat) :
    execCmds (schemeLoop dest exec i ss).1 =
      ss.map (fun s => ["xcodebuild", "test", "-destination", dest,
        "-scheme", s]) := by
  induction ss generalizing i with
  | nil => rfl
  | cons s rest ih =>
    cases h : (exec i).2 <;> simp [schemeLoop, h, execCmds, ih]

/-- The loop's testFailed flag is exactly "some scheme's command failed". -/
theorem schemeLoop_failed (dest : String) (exec : Nat → String × Option String)
    (ss : List String) (i : Nat) :
    (schemeLoop dest exec i ss).2 = anyFail exec i ss := by
  induction ss generalizing i with
  | nil => rfl
  | cons s rest ih =>
    cases h : (exec i).2 <;> simp [schemeLoop, anyFail, h, ih]

/-- The scheme loop never calls WriteHeader. -/
theorem schemeLoop_no_header (dest : String) (exec : Nat → String × Option String)
    (ss : List String) (i : Nat) :
    ∀ e ∈ (schemeLoop dest exec i ss).1, isHeaderEv e = false := by
  induction ss generalizing i with
  | nil => simp [schemeLoop]
  | cons s rest ih =>
    cases h : (exec i).2 <;>
      simp [schemeLoop, h, isHeaderEv] <;>
      exact fun e he => ih (i + 1) e he

/-- anyFail is false exactly when every scheme's command succeeds. -/
theorem anyFail_false_iff (exec : Nat → String × Option String)
    (ss : List String) (i : Nat) :
    anyFail exec i ss = false ↔ ∀ j < ss.length, (exec (i + j)).2 = none := by
  induction ss generalizing i with
  | nil => simp [anyFail]
  | cons s rest ih =>
    cases h : (exec i).2 with
    | some e =>
      simp only [anyFail, h]
      constructor
      · intro hx; simp at hx
      · intro hall
        have h0 := hall 0 (by simp)
        rw [Nat.add_zero] at h0
        rw [h0] at h
        exact absurd h (by simp)
    | none =>
      simp only [anyFail, h, Option.isSome_none, Bool.false_or, ih]
      constructor
      · intro hall j hj
        cases j with
        | zero => simpa using h
        | succ k =>
          have hx := hall k (by simpa using Nat.lt_of_succ_lt_succ hj)
          have harith : i + (k + 1) = i + 1 + k := by omega
          rw [harith]; exact hx
      · intro hall k hk
        have hx := hall (k + 1) (by simpa using Nat.succ_lt_succ hk)
        have harith : i + (k + 1) = i + 1 + k := by omega
        rw [harith] at hx; exact hx

/-- On the success path (parameters present, staging and extraction all
succeed) the iOS trace is the staging events, the lock, the scheme loop,
the conditional ALL-PASSED line, the unlock, and the deferred RemoveAll
resolved against the changed working directory. -/
theorem runIOSTest_success (q : Query) (env : IOSEnv)
    (hdest : queryGet q "test_destination" ≠ "")
    (hstr : queryGet q "test_schemes" ≠ "")
    (hc1 : env.chdirTmpErr = none) (hmk : env.mkdirErr = none)
    (hc2 : env.chdirInErr = none) (hopen : env.openRes = .ok)
    (hread : env.readErr = none) (htar : (env.exec 0).2 = none) :
    (runIOSTest q env).trace =
      iosSuccessPre env ++ [.lock] ++
      (schemeLoop (queryGet q "test_destination") env.exec 1
        (goSplitComma (queryGet q "test_schemes"))).1 ++
      (if anyFail env.exec 1 (goSplitComma (queryGet q "test_schemes")) then []
        else [.write "!!ALL TESTS PASSED!!\n"]) ++
      [.unlock, .removeDirAll (env.tempDir ++ [env.suffix, env.suffix])] := by
  simp [runIOSTest, iosSuccessPre, hdest, hstr, hc1, hmk, hc2, hopen, hread,
    readAllTee, htar, schemeLoop_failed]

/-- C2: on the iOS success path every scheme of the parsed list gets
exactly one xcodebuild invocation, in list order; the response text is the
per-scheme start line followed by the FAILED marker with error and output
(the loop continuing) or the PASSED marker with output, scheme by scheme;
the trailing ALL-TESTS-PASSED line is appended iff every scheme's command
succeeded; and the HTTP status is 200 regardless of per-scheme failures. -/
theorem c2_ios_scheme_loop (q : Query) (env : IOSEnv)
    (hdest : queryGet q "test_destination" ≠ "")
    (hstr : queryGet q "test_schemes" ≠ "")
    (hc1 : env.chdirTmpErr = none) (hmk : env.mkdirErr = none)
    (hc2 : env.chdirInErr = none) (hopen : env.openRes = .ok)
    (hread : env.readErr = none) (htar : (env.exec 0).2 = none) :
    execCmds (runIOSTest q env).trace =
      ["tar", "xf", pathStr (env.tempDir ++ [env.suffix, "source.tgz"])] ::
        (goSplitComma (queryGet q "test_schemes")).map
          (fun s => ["xcodebuild", "test", "-destination",
            queryGet q "test_destination", "-scheme", s]) ∧
    respBody (runIOSTest q env).trace =
      loopText (queryGet q "test_destination") env.exec 1
          (goSplitComma (queryGet q "test_schemes")) ++
        (if anyFail env.exec 1 (goSplitComma (queryGet q "test_schemes"))
          then "" else "!!ALL TESTS PASSED!!\n") ∧
    respStatus (runIOSTest q env).trace = 200 ∧
    (anyFail env.exec 1 (goSplitComma (queryGet q "test_schemes")) = false ↔
      ∀ j < (goSplitComma (queryGet q "test_schemes")).length,
        (env.exec (1 + j)).2 = none) := by
  rw [runIOSTest_success q env hdest hstr hc1 hmk hc2 hopen hread htar]
  refine ⟨?_, ?_, ?_, anyFail_false_iff _ _ _⟩
  · cases haf : anyFail env.exec 1 (goSplitComma (queryGet q "test_schemes")) <;>
      simp [haf, execCmds_append, execCmds, iosSuccessPre, schemeLoop_cmds]
  · cases haf : anyFail env.exec 1 (goSplitComma (queryGet q "test_schemes")) <;>
      simp [haf, respBody_append, respBody, iosSuccessPre, schemeLoop_body]
  · apply respStatus_no_header
    intro e he
    rcases List.mem_append.1 he with h5 | h5
    · rcases List.mem_append.1 h5 with h4 | h4
      · rcases List.mem_append.1 h4 with h3 | h3
        · rcases List.mem_append.1 h3 with h2 | h2
          · simp [iosSuccessPre] at h2
            rcases h2 with rfl | rfl | rfl | rfl | rfl | rfl | rfl | rfl | rfl <;>
              rfl
          · simp at h2; subst h2; rfl
        · exact schemeLoop_no_header _ _ _ _ e h3
      · revert h4
        cases anyFail env.exec 1 (goSplitComma (queryGet q "test_schemes")) <;>
          intro h4 <;> simp at h4
        subst h4; rfl
    · simp at h5
      rcases h5 with rfl | rfl <;> rfl

/-- Witness for C2 with schemes A,B where A fails and B succeeds: the
FAILED and PASSED markers appear for the right schemes and the trailing
line is absent. -/
theorem c2_ios_scheme_loop_witness :
    respBody (runIOSTest
      [("test_destination", "mydev"), ("test_schemes", "A,B")]
      { sampleIOSEnv with
          exec := fun n => if n = 1 then ("outA", some "exit status 65")
            else ("outB", none) }).trace =
      "ios: Testing scheme \"A\" on destination \"mydev\"\n" ++
        "!!TEST FAILED!!\nexit status 65\noutA" ++
      ("ios: Testing scheme \"B\" on destination \"mydev\"\n" ++
        "!!TEST PASSED!!\noutB") ++ "" := by
  have h := (c2_ios_scheme_loop
    [("test_destination", "mydev"), ("test_schemes", "A,B")]
    { sampleIOSEnv with
        exec := fun n => if n = 1 then ("outA", some "exit status 65")
          else ("outB", none) }
    (by decide) (by decide) rfl rfl rfl rfl rfl rfl).2.1
  rw [h]
  decide

/-- C9: the scheme list is exactly the comma split of the non-empty
test_schemes value — every substring between commas in order, no trimming,
no deduplication, empty segments included — and each segment is passed
unchanged as the -scheme argument of one build-tool invocation.  The
sample equations exhibit the empty segments of "A," and "A,,B". -/
theorem c9_scheme_split (q : Query) (env : IOSEnv)
    (hdest : queryGet q "test_destination" ≠ "")
    (hstr : queryGet q "test_schemes" ≠ "")
    (hc1 : env.chdirTmpErr = none) (hmk : env.mkdirErr = none)
    (hc2 : env.chdirInErr = none) (hopen : env.openRes = .ok)
    (hread : env.readErr = none) (htar : (env.exec 0).2 = none) :
    execCmds (runIOSTest q env).trace =
      ["tar", "xf", pathStr (env.tempDir ++ [env.suffix, "source.tgz"])] ::
        (goSplitComma (queryGet q "test_schemes")).map
          (fun s => ["xcodebuild", "test", "-destination",
            queryGet q "test_destination", "-scheme", s]) ∧
    goSplitComma "A," = ["A", ""] ∧
    goSplitComma "A,,B" = ["A", "", "B"] := by
  rw [runIOSTest_success q env hdest hstr hc1 hmk hc2 hopen hread htar]
  refine ⟨?_, by decide, by decide⟩
  cases haf : anyFail env.exec 1 (goSplitComma (queryGet q "test_schemes")) <;>
    simp [haf, execCmds_append, execCmds, iosSuccessPre, schemeLoop_cmds]

/-- Witness for C9 with test_schemes=A,,B: the empty middle segment gets
its own xcodebuild invocation with an empty -scheme argument. -/
theorem c9_scheme_split_witness :
    execCmds (runIOSTest
      [("test_destination", "mydev"), ("test_schemes", "A,,B")]
      sampleIOSEnv).trace =
      [["tar", "xf", "/tmp/abcde/source.tgz"],
       ["xcodebuild", "test", "-destination", "mydev", "-scheme", "A"],
       ["xcodebuild", "test", "-destination", "mydev", "-scheme", ""],
       ["xcodebuild", "test", "-destination", "mydev", "-scheme", "B"]] := by
  have h := (c9_scheme_split
    [("test_destination", "mydev"), ("test_schemes", "A,,B")]
    sampleIOSEnv (by decide) (by decide) rfl rfl rfl rfl rfl rfl).1
  rw [h]
  decide

/-- C1: the Android half of the cleanup claim holds — on every path the
runner leaves no created staging file behind — but the iOS half fails on
the code: on a fully successful request the deferred os.RemoveAll runs with
the working directory already inside the staging directory, so its relative
argument resolves to tempDir/suffix/suffix and removes nothing, leaving the
staging directory and the source.tgz inside it on disk. -/
theorem c1_cleanup_divergence :
    (∀ (q : Query) (env : AndroidEnv),
      remaining (runAndroidTest q env).trace [] = []) ∧
    remaining (runIOSTest
      [("test_destination", "mydev"), ("test_schemes", "A")]
      sampleIOSEnv).trace [] =
      [["/tmp", "abcde"], ["/tmp", "abcde", "source.tgz"]] := by
  constructor
  · intro q env
    by_cases hp : queryGet q "test_package" = ""
    · simp [runAndroidTest, hp, remaining]
    · rcases ho : env.openRes with _ | msg | msg
      · rcases hr : readAllTee true env.readErr env.bodyEmpty with _ | e
        · rcases h0 : (env.exec 0).2 with _ | e0
          · rcases h1 : (env.exec 1).2 with _ | e1
            · simp [runAndroidTest, hp, ho, hr, h0, h1, remaining]
            · simp [runAndroidTest, hp, ho, hr, h0, h1, remaining]
          · simp [runAndroidTest, hp, ho, hr, h0, remaining]
        · simp [runAndroidTest, hp, ho, hr, remaining]
      · simp [runAndroidTest, hp, ho, remaining]
      · simp [runAndroidTest, hp, ho, remaining]
  · decide

/-- C10 counterexample: with a non-IsExist open failure (say, permission
denied) the iOS runner does return an error response — a 400 whose body is
the nil-handle write error "invalid argument" — contradicting the claim
that no error response is returned and that the write dereferences the
handle. -/
theorem c10_counterexample :
    respStatus (runIOSTest
      [("test_destination", "mydev"), ("test_schemes", "A")]
      { sampleIOSEnv with openRes := .errOther "permission denied" }).trace
      = 400 ∧
    respBody (runIOSTest
      [("test_destination", "mydev"), ("test_schemes", "A")]
      { sampleIOSEnv with openRes := .errOther "permission denied" }).trace
      = "invalid argument" := by
  decide

/-- C10 amended: the exclusive-create check indeed tests only os.IsExist,
so any other open error leaves a nil handle and that branch is not total,
but the failure modes differ per runner: the Android runner panics at the
deferred apkFile.Name() before writing anything, while the iOS runner's
nil-handle tee write fails, yielding a 400 whose body is "invalid argument"
rather than the open error — except on an empty body, where nothing is
written to the nil handle and the runner panics later at
sourceFile.Name(). -/
theorem c10_open_error_not_total (q : Query) (msg : String) :
    (∀ env : AndroidEnv, queryGet q "test_package" ≠ "" →
      env.openRes = .errOther msg → runAndroidTest q env = ⟨[], true⟩) ∧
    (∀ env : IOSEnv, queryGet q "test_destination" ≠ "" →
      queryGet q "test_schemes" ≠ "" →
      env.chdirTmpErr = none → env.mkdirErr = none → env.chdirInErr = none →
      env.openRes = .errOther msg → env.readErr = none →
      ((env.bodyEmpty = false →
        respStatus (runIOSTest q env).trace = 400 ∧
        respBody (runIOSTest q env).trace = "invalid argument" ∧
        (runIOSTest q env).panicked = false) ∧
       (env.bodyEmpty = true → (runIOSTest q env).panicked = true))) := by
  constructor
  · intro env hp ho
    simp [runAndroidTest, hp, ho]
  · intro env hdest hstr hc1 hmk hc2 ho hread
    constructor
    · intro hbody
      simp [runIOSTest, hdest, hstr, hc1, hmk, hc2, ho, hread, hbody,
        readAllTee, respStatus, respBody]
    · intro hbody
      simp [runIOSTest, hdest, hstr, hc1, hmk, hc2, ho, hread, hbody,
        readAllTee]

/-- Witness for C10 at concrete requests: the Android runner panics with
an empty trace, and the iOS runner (non-empty body) answers 400. -/
theorem c10_open_error_not_total_witness :
    runAndroidTest [("test_package", "com.x.tests")]
      { sampleAndroidEnv with openRes := .errOther "permission denied" } =
      ⟨[], true⟩ ∧
    respStatus (runIOSTest
      [("test_destination", "mydev"), ("test_schemes", "A")]
      { sampleIOSEnv with openRes := .errOther "permission denied" }).trace
      = 400 := by
  constructor
  · exact (c10_open_error_not_total [("test_package", "com.x.tests")]
      "permission denied").1
      { sampleAndroidEnv with openRes := .errOther "permission denied" }
      (by decide) rfl
  · exact (((c10_open_error_not_total
      [("test_destination", "mydev"), ("test_schemes", "A")]
      "permission denied").2
      { sampleIOSEnv with openRes := .errOther "permission denied" }
      (by decide) (by decide) rfl rfl rfl rfl rfl).1 rfl).1

/-! ### Serialization: the runner traces are well-locked, and well-locked
traces never overlap their device commands in any mutex-valid schedule -/

/-- adb commands are serialized. -/
theorem serializedCmd_adb (r : List String) :
    serializedCmd ("adb" :: r) = true := rfl

/-- xcodebuild commands are serialized. -/
theorem serializedCmd_xcb (r : List String) :
    serializedCmd ("xcodebuild" :: r) = true := rfl

/-- The tar extraction is not a serialized command. -/
theorem serializedCmd_tar (r : List String) :
    serializedCmd ("tar" :: r) = false := rfl

/-- The well-locking automaton over an appended trace runs in sequence. -/
theorem wlRun_append (a b : List Event) (s : Bool × Bool) :
    wlRun s (a ++ b) = (wlRun s a).bind (fun s2 => wlRun s2 b) := by
  induction a generalizing s with
  | nil => simp [wlRun]
  | cons e r ih =>
    simp only [List.cons_append, wlRun]
    cases wlStep s e with
    | none => rfl
    | some s2 => exact ih s2

/-- The scheme loop keeps the well-locking state: it runs entirely inside
the lock, opening and closing one serialized command per scheme. -/
theorem wlRun_schemeLoop (dest : String) (exec : Nat → String × Option String)
    (ss : List String) (i : Nat) :
    wlRun (true, false) (schemeLoop dest exec i ss).1 = some (true, false) := by
  induction ss generalizing i with
  | nil => rfl
  | cons s rest ih =>
    cases h : (exec i).2 <;>
      simp [schemeLoop, h, wlRun_append, wlRun, wlStep, actOf, wlStepA,
        serializedCmd_xcb, ih]

/-- Every Android trace is well-locked: both adb commands run strictly
between Lock and the deferred Unlock. -/
theorem wellLocked_android (q : Query) (env : AndroidEnv) :
    wellLocked (runAndroidTest q env).trace := by
  unfold wellLocked
  by_cases hp : queryGet q "test_package" = ""
  · simp [runAndroidTest, hp, wlRun, wlStep, actOf, wlStepA]
  · rcases ho : env.openRes with _ | msg | msg
    · rcases hr : readAllTee true env.readErr env.bodyEmpty with _ | e
      · rcases h0 : (env.exec 0).2 with _ | e0
        · rcases h1 : (env.exec 1).2 with _ | e1 <;>
            simp [runAndroidTest, hp, ho, hr, h0, h1, wlRun, wlStep, actOf,
              wlStepA, serializedCmd_adb]
        · simp [runAndroidTest, hp, ho, hr, h0, wlRun, wlStep, actOf,
            wlStepA, serializedCmd_adb]
      · simp [runAndroidTest, hp, ho, hr, wlRun, wlStep, actOf, wlStepA]
    · simp [runAndroidTest, hp, ho, wlRun, wlStep, actOf, wlStepA]
    · simp [runAndroidTest, hp, ho, wlRun, wlStep, actOf, wlStepA]

/-- Every iOS trace is well-locked: the xcodebuild loop runs strictly
between Lock and the deferred Unlock (tar, unserialized, runs outside). -/
theorem wellLocked_ios (q : Query) (env : IOSEnv) :
    wellLocked (runIOSTest q env).trace := by
  unfold wellLocked
  by_cases hdest : queryGet q "test_destination" = ""
  · simp [runIOSTest, hdest, wlRun, wlStep, actOf, wlStepA]
  · by_cases hstr : queryGet q "test_schemes" = ""
    · simp [runIOSTest, hdest, hstr, wlRun, wlStep, actOf, wlStepA]
    · rcases hc1 : env.chdirTmpErr with _ | e1
      · rcases hmk : env.mkdirErr with _ | e2
        · rcases hc2 : env.chdirInErr with _ | e3
          · rcases ho : env.openRes with _ | msg | msg
            · rcases hr : readAllTee true env.readErr env.bodyEmpty with _ | e4
              · rcases h0 : (env.exec 0).2 with _ | e5
                · cases hl : (schemeLoop (queryGet q "test_destination")
                      env.exec 1 (goSplitComma (queryGet q "test_schemes"))).2 <;>
                    simp [runIOSTest, hdest, hstr, hc1, hmk, hc2, ho, hr, h0,
                      hl, wlRun_append, wlRun, wlStep, actOf, wlStepA,
                      serializedCmd_tar, wlRun_schemeLoop]
                · simp [runIOSTest, hdest, hstr, hc1, hmk, hc2, ho, hr, h0,
                    wlRun, wlStep, actOf, wlStepA, serializedCmd_tar]
              · simp [runIOSTest, hdest, hstr, hc1, hmk, hc2, ho, hr, wlRun,
                  wlStep, actOf, wlStepA]
            · simp [runIOSTest, hdest, hstr, hc1, hmk, hc2, ho, wlRun,
                wlStep, actOf, wlStepA]
            · rcases hr : readAllTee false env.readErr env.bodyEmpty with _ | e4 <;>
                simp [runIOSTest, hdest, hstr, hc1, hmk, hc2, ho, hr, wlRun,
                  wlStep, actOf, wlStepA]
          · simp [runIOSTest, hdest, hstr, hc1, hmk, hc2, wlRun, wlStep,
              actOf, wlStepA]
        · simp [runIOSTest, hdest, hstr, hc1, hmk, wlRun, wlStep, actOf,
            wlStepA]
      · simp [runIOSTest, hdest, hstr, hc1, wlRun, wlStep, actOf, wlStepA]

set_option synthInstance.maxSize 2048 in
/-- One-step transfer of the mutex invariant, checked over the whole
finite state space: whenever a thread's own automaton and the mutex both
step, the exclusion checker also steps and the invariant is preserved. -/
theorem inv_transfer :
    ∀ (k : Act) (t : Bool) (o o2 op : Option Bool) (sa sb s2 : Bool × Bool),
      invB o sa sb op = true →
      wlStepA (if t then sa else sb) k = some s2 →
      mStepA o t k = some o2 →
      ∃ op2, exclStepA op t k = some op2 ∧
        invB o2 (if t then s2 else sa) (if t then sb else s2) op2 = true := by
  decide

/-- Mutual exclusion of serialized commands: in any mutex-valid schedule
interleaving two well-locked traces, the exclusion checker accepts — no
serialized command starts while another thread's is open. -/
theorem excl_of_wellLocked {l : List (Bool × Event)} {a b : List Event}
    (hint : Interleave l a b) :
    ∀ (sa sb : Bool × Bool) (o op : Option Bool),
      (wlRun sa a).isSome → (wlRun sb b).isSome →
      MutexInv o sa sb op → (mRun o l).isSome → (exclRun op l).isSome := by
  induction hint with
  | nil =>
    intro sa sb o op _ _ _ _
    simp [exclRun]
  | @left l' a' b' e _ ih =>
    intro sa sb o op hwa hwb hinv hm
    cases hwl : wlStep sa e with
    | none => simp [wlRun, hwl] at hwa
    | some sa2 =>
      simp only [wlRun, hwl] at hwa
      cases hms : mStep o (true, e) with
      | none => simp [mRun, hms] at hm
      | some o2 =>
        simp only [mRun, hms] at hm
        obtain ⟨op2, hex, hinv2⟩ :=
          inv_transfer (actOf e) true o o2 op sa sb sa2 hinv hwl hms
        have hex2 : exclStep op (true, e) = some op2 := hex
        simp only [exclRun, hex2]
        exact ih sa2 sb o2 op2 hwa hwb hinv2 hm
  | @right l' a' b' e _ ih =>
    intro sa sb o op hwa hwb hinv hm
    cases hwl : wlStep sb e with
    | none => simp [wlRun, hwl] at hwb
    | some sb2 =>
      simp only [wlRun, hwl] at hwb
      cases hms : mStep o (false, e) with
      | none => simp [mRun, hms] at hm
      | some o2 =>
        simp only [mRun, hms] at hm
        obtain ⟨op2, hex, hinv2⟩ :=
          inv_transfer (actOf e) false o o2 op sa sb sb2 hinv hwl hms
        have hex2 : exclStep op (false, e) = some op2 := hex
        simp only [exclRun, hex2]
        exact ih sa sb2 o2 op2 hwa hwb hinv2 hm

/-- Tagging a whole trace as thread false interleaves it with nothing. -/
theorem interleave_all_right (b : List Event) :
    Interleave (b.map (fun e => (false, e))) [] b := by
  induction b with
  | nil => exact .nil
  | cons e r ih => exact .right ih

/-- Prepending thread true's whole trace to a schedule of the rest. -/
theorem interleave_prepend_left (a0 : List Event) {l : List (Bool × Event)}
    {a b : List Event} (h : Interleave l a b) :
    Interleave (a0.map (fun e => (true, e)) ++ l) (a0 ++ a) b := by
  induction a0 with
  | nil => simpa using h
  | cons e r ih => exact .left ih

/-- C4 counterexample: the lock is not held from before the first tool
invocation of an iOS request — in a concrete successful iOS trace a tool
invocation (the tar extraction) occurs among the first eight events, none
of which is the Lock. -/
theorem c4_counterexample :
    (((runIOSTest [("test_destination", "mydev"), ("test_schemes", "A")]
      sampleIOSEnv).trace.take 8).any isExecEv = true) ∧
    Event.lock ∉ ((runIOSTest [("test_destination", "mydev"), ("test_schemes", "A")]
      sampleIOSEnv).trace.take 8) := by
  decide

/-- C4 amended: the device-touching commands — Android's install and
instrument, iOS's per-scheme xcodebuild runs (not the iOS tar extraction,
which runs before the lock) — are serialized: each runner holds the lock
across all its serialized commands (wellLocked), so in every mutex-valid
schedule interleaving any two runner traces, no serialized command of one
request starts while the other's is still executing. -/
theorem c4_serialized_mutual_exclusion (ta tb : List Event)
    (ha : (∃ q env, ta = (runAndroidTest q env).trace) ∨
      (∃ q env, ta = (runIOSTest q env).trace))
    (hb : (∃ q env, tb = (runAndroidTest q env).trace) ∨
      (∃ q env, tb = (runIOSTest q env).trace))
    (l : List (Bool × Event)) (hint : Interleave l ta tb)
    (hm : (mRun none l).isSome) : (exclRun none l).isSome := by
  have hwa : (wlRun (false, false) ta).isSome := by
    rcases ha with ⟨q, env, rfl⟩ | ⟨q, env, rfl⟩
    · have h := wellLocked_android q env
      unfold wellLocked at h
      rw [h]; rfl
    · have h := wellLocked_ios q env
      unfold wellLocked at h
      rw [h]; rfl
  have hwb : (wlRun (false, false) tb).isSome := by
    rcases hb with ⟨q, env, rfl⟩ | ⟨q, env, rfl⟩
    · have h := wellLocked_android q env
      unfold wellLocked at h
      rw [h]; rfl
    · have h := wellLocked_ios q env
      unfold wellLocked at h
      rw [h]; rfl
  exact excl_of_wellLocked hint (false, false) (false, false) none none
    hwa hwb rfl hm

/-- Witness for C4 on a concrete mutex-valid schedule: the Android request
runs to completion, then the iOS request. -/
theorem c4_serialized_mutual_exclusion_witness :
    (mRun none
      ((runAndroidTest [("test_package", "com.x.tests")]
          sampleAndroidEnv).trace.map (fun e => (true, e)) ++
        (runIOSTest [("test_destination", "mydev"), ("test_schemes", "A")]
          sampleIOSEnv).trace.map (fun e => (false, e)))).isSome ∧
    (exclRun none
      ((runAndroidTest [("test_package", "com.x.tests")]
          sampleAndroidEnv).trace.map (fun e => (true, e)) ++
        (runIOSTest [("test_destination", "mydev"), ("test_schemes", "A")]
          sampleIOSEnv).trace.map (fun e => (false, e)))).isSome := by
  refine ⟨by decide, ?_⟩
  refine c4_serialized_mutual_exclusion
    ((runAndroidTest [("test_package", "com.x.tests")] sampleAndroidEnv).trace)
    ((runIOSTest [("test_destination", "mydev"), ("test_schemes", "A")]
      sampleIOSEnv).trace)
    (Or.inl ⟨[("test_package", "com.x.tests")], sampleAndroidEnv, rfl⟩)
    (Or.inr ⟨[("test_destination", "mydev"), ("test_schemes", "A")],
      sampleIOSEnv, rfl⟩)
    _ ?_ (by decide)
  have h := interleave_prepend_left
    ((runAndroidTest [("test_package", "com.x.tests")] sampleAndroidEnv).trace)
    (interleave_all_right
      ((runIOSTest [("test_destination", "mydev"), ("test_schemes", "A")]
        sampleIOSEnv).trace))
  simpa using h

end DPharmd
